import Mathlib

/-!
Shallow embedding of the flycheck subsystem of `crates/flycheck/src/lib.rs`:
the check actor's restart/cancel coalescing, the cargo process handle's
`join` outcome policy, the output reader's per-line decoding, and the
Verus verification-variant command synthesis (`run_verus`), together with
theorems settling the specification's claims about them.

Rust strings are modelled as Lean `String`; the Rust string operations used
by the source (`contains`, `starts_with`, `ends_with`, `trim`, `replace`,
`split`, byte-range slicing on ASCII text) are implemented below as
structural (fuel-based) list functions so that they evaluate inside the
kernel.  Filesystem paths are modelled as lists of components.
-/

namespace Flycheck

/-! ## Rust string operations, structurally recursive -/

/-- One replacement pass of Rust `str::replace`: left-to-right,
non-overlapping.  `fuel` bounds the recursion; each step consumes at least
one character, so `fuel = l.length` computes the full replacement. -/
def replaceCharsAux : Nat → List Char → List Char → List Char → List Char
  | 0, l, _, _ => l
  | fuel + 1, l, pat, rep =>
    match l with
    | [] => []
    | c :: rest =>
      if pat ≠ [] ∧ pat.isPrefixOf l then rep ++ replaceCharsAux fuel (l.drop pat.length) pat rep
      else c :: replaceCharsAux fuel rest pat rep

/-- Rust `str::replace` (all occurrences, left to right, non-overlapping). -/
def rustReplace (s pat rep : String) : String :=
  ⟨replaceCharsAux s.data.length s.data pat.data rep.data⟩

/-- Splitting pass of Rust `str::split` with a string pattern (keeps empty
pieces, `"".split(p) = [""]`).  Fuel as in `replaceCharsAux`. -/
def splitCharsAux : Nat → List Char → List Char → List (List Char)
  | 0, l, _ => [l]
  | fuel + 1, l, sep =>
    match l with
    | [] => [[]]
    | c :: rest =>
      if sep ≠ [] ∧ sep.isPrefixOf l then [] :: splitCharsAux fuel (l.drop sep.length) sep
      else
        match splitCharsAux fuel rest sep with
        | [] => [[c]]
        | h :: t => (c :: h) :: t

/-- Rust `str::split` on a string pattern, collected into a vector. -/
def rustSplit (s sep : String) : List String :=
  (splitCharsAux s.data.length s.data sep.data).map (fun l => ⟨l⟩)

/-- Rust `str::trim` (whitespace stripped from both ends). -/
def trimChars (l : List Char) : List Char :=
  ((l.dropWhile Char.isWhitespace).reverse.dropWhile Char.isWhitespace).reverse

/-- Rust `str::trim` on `String`. -/
def rustTrim (s : String) : String := ⟨trimChars s.data⟩

/-- Rust `str::contains` with a string pattern (substring occurrence). -/
def listContainsSub : List Char → List Char → Bool
  | l, pat =>
    if pat.isPrefixOf l then true
    else
      match l with
      | [] => false
      | _ :: rest => listContainsSub rest pat

/-- `strContains s pat` is Rust `s.contains(pat)`. -/
def strContains (s pat : String) : Bool := listContainsSub s.data pat.data

/-- Rust `str::starts_with` with a string pattern. -/
def strStartsWith (s pat : String) : Bool := List.isPrefixOf pat.data s.data

/-- Rust `str::ends_with` with a string pattern. -/
def strEndsWith (s pat : String) : Bool := List.isSuffixOf pat.data s.data

/-- Drop the first `n` characters (Rust byte slicing `s[n..]` on ASCII text). -/
def strDrop (s : String) (n : Nat) : String := ⟨s.data.drop n⟩

/-- Drop the last `n` characters (Rust `s[..len-n]` on ASCII text, and
Rust `String::remove` of the last character when `n = 1`). -/
def strDropRight (s : String) (n : Nat) : String := ⟨s.data.take (s.data.length - n)⟩

/-! Basic facts about `listContainsSub`, used to state "the error message
contains the accumulated text". -/

theorem isPrefixOf_append (a t : List Char) : a.isPrefixOf (a ++ t) = true := by
  induction a with
  | nil => simp
  | cons x xs ih => simp [ih]

theorem listContainsSub_of_infix {pat l : List Char} (h : pat <:+: l) :
    listContainsSub l pat = true := by
  induction l with
  | nil =>
    have hp : pat = [] := List.eq_nil_of_infix_nil h
    subst hp
    rfl
  | cons c rest ih =>
    rw [listContainsSub]
    rcases List.infix_cons_iff.mp h with hpre | hinf
    · rcases hpre with ⟨t, ht⟩
      rw [← ht, isPrefixOf_append]
      rfl
    · cases hp : pat.isPrefixOf (c :: rest)
      · simpa [hp] using ih hinf
      · simp [hp]

/-- Substring containment of a suffix. -/
theorem strContains_of_suffix (a b : String) : strContains (a ++ b) b = true := by
  apply listContainsSub_of_infix
  refine ⟨a.data, [], ?_⟩
  simp [String.data_append]

/-- Substring containment of a middle factor. -/
theorem strContains_of_middle (a b c : String) : strContains (a ++ b ++ c) b = true := by
  apply listContainsSub_of_infix
  refine ⟨a.data, c.data, ?_⟩
  simp [String.data_append]

/-! ## Process handle: `CargoHandle::join` -/

/-- Abstraction of `std::process::ExitStatus`: whether `.success()` holds,
and its opaque `Debug` rendering (interpolated by `{exit_status:?}`). -/
structure ExitStatus where
  success : Bool
  debugRepr : String

/-- `CargoHandle::join` (lib.rs:581-592), after the kill/wait and the reader
thread join have succeeded: the reader's result is `read_at_least_one_message`
and its accumulated raw text `error`; the child's exit status is
`exit_status`.  Returns `Ok(())` or `Err` with the formatted message. -/
def CargoHandle.join (exit_status : ExitStatus) (read_at_least_one_message : Bool)
    (error : String) : Except String Unit :=
  if read_at_least_one_message || exit_status.success then Except.ok ()
  else
    Except.error
      ("Cargo watcher failed, the command produced no valid metadata (exit code: " ++
        exit_status.debugRepr ++ "):\n" ++ error)

/-- C1: `join` succeeds iff the reader decoded at least one message or the
exit status is success; otherwise the failure message contains the
accumulated raw text and the exit status; the three concrete spec cases
follow. -/
theorem join_success_iff (st : ExitStatus) (read : Bool) (err : String) :
    (CargoHandle.join st read err = Except.ok () ↔ (read = true ∨ st.success = true)) ∧
    (read = false → st.success = false →
      ∃ m, CargoHandle.join st read err = Except.error m ∧
        strContains m err = true ∧ strContains m st.debugRepr = true) := by
  constructor
  · unfold CargoHandle.join
    cases read <;> cases h : st.success <;> simp [h]
  · intro hr hs
    refine ⟨"Cargo watcher failed, the command produced no valid metadata (exit code: " ++
        st.debugRepr ++ "):\n" ++ err, ?_, ?_, ?_⟩
    · unfold CargoHandle.join
      simp [hr, hs]
    · exact strContains_of_suffix _ err
    · have h2 := strContains_of_middle
        "Cargo watcher failed, the command produced no valid metadata (exit code: "
        st.debugRepr ("):\n" ++ err)
      rwa [← String.append_assoc] at h2

/-- C1 witness: the failure case at a concrete input, via `join_success_iff`. -/
theorem join_success_iff_witness :
    (CargoHandle.join ⟨false, "ExitStatus(1)"⟩ false "raw text" = Except.ok () ↔
      (false = true ∨ false = true)) ∧
    (false = false → false = false →
      ∃ m, CargoHandle.join ⟨false, "ExitStatus(1)"⟩ false "raw text" = Except.error m ∧
        strContains m "raw text" = true ∧ strContains m "ExitStatus(1)" = true) :=
  join_success_iff ⟨false, "ExitStatus(1)"⟩ false "raw text"

/-! ## Messages and events -/

/-- The fields of `cargo_metadata::Artifact` the source consults:
`artifact.fresh` (lib.rs:630) and `artifact.target.name` (lib.rs:309). -/
structure Artifact where
  fresh : Bool
  target_name : String
deriving DecidableEq

/-- `CargoMessage` (lib.rs:684-688); the `Diagnostic` payload is opaque to
this subsystem and is modelled as a string. -/
inductive CargoMessage
  | CompilerArtifact (artifact : Artifact)
  | Diagnostic (diagnostic : String)
  | VerusResult (text : String)
deriving DecidableEq

/-- The variants of `cargo_metadata::Message` the source distinguishes
(lib.rs:629-640): artifact, compiler message (whose `.message` field is the
opaque diagnostic payload), and everything else. -/
inductive CargoMetadataMessage
  | CompilerArtifact (artifact : Artifact)
  | CompilerMessage (message : String)
  | Other
deriving DecidableEq

/-- `JsonMessage` (lib.rs:690-695): untagged, either a cargo build message
or a bare rustc diagnostic. -/
inductive JsonMessage
  | Cargo (message : CargoMetadataMessage)
  | Rustc (diagnostic : String)
deriving DecidableEq

/-- `StateChange` (lib.rs:159-163): the control requests. -/
inductive StateChange
  | Restart
  | Cancel
  | RestartVerus (file : String)
deriving DecidableEq

/-- `Progress` (lib.rs:149-157); payloads not needed by the claims
(the `DidFinish` result) are reduced to a success flag. -/
inductive Progress
  | DidStart
  | DidCheckCrate (name : String)
  | DidFinish (ok : Bool)
  | DidCancel
  | DidFailToRestart (msg : String)
  | VerusResult (msg : String)
deriving DecidableEq

/-- `Event` (lib.rs:182-185). -/
inductive Event
  | RequestStateChange (s : StateChange)
  | CheckEvent (m : Option CargoMessage)
deriving DecidableEq

/-! ## Check actor: event priority (`next_event`) -/

/-- `FlycheckActor::next_event` (lib.rs:202-212).  The two channels are
modelled by their queued contents: `inbox` is the control-request queue and
`check_chan` is `Some` of the check-message queue when a `cargo_handle`
exists (`None` models the `never()` channel).  A queued check message is
`none` when the channel has disconnected (`msg.ok()` in the source).  The
source polls `inbox.try_recv()` first, so a queued control request always
wins; only with an empty inbox does the select look at the check channel.
With both channels empty the actor blocks, which this function reports as
`none` (no event yet). -/
def next_event (inbox : List StateChange)
    (check_chan : Option (List (Option CargoMessage))) : Option Event :=
  match inbox with
  | msg :: _ => some (Event.RequestStateChange msg)
  | [] =>
    match check_chan with
    | some (m :: _) => some (Event.CheckEvent m)
    | _ => none

/-- C8: whenever at least one control request is queued, `next_event`
returns that control request, regardless of the check-message backlog — a
pending subprocess-message backlog never delays a restart or cancel. -/
theorem next_event_priority (r : StateChange) (rs : List StateChange)
    (check_chan : Option (List (Option CargoMessage))) :
    next_event (r :: rs) check_chan = some (Event.RequestStateChange r) ∧
    ∀ backlog : List (Option CargoMessage),
      next_event (r :: rs) (some backlog) = next_event (r :: rs) check_chan := by
  exact ⟨rfl, fun _ => rfl⟩

/-! ## Check actor: restart coalescing (`FlycheckActor::run`) -/

/-- The coalescing drain loop (lib.rs:224-229 and lib.rs:254-259): requests
arriving within the 50 ms window (`recv_timeout`) are received one at a
time and otherwise discarded; on the first `Cancel` the branch aborts
(`continue 'event`).  `burst` is the sequence of requests that arrive
within the window; the result is `true` iff the branch aborts. -/
def drainAborts : List StateChange → Bool
  | [] => false
  | StateChange.Cancel :: _ => true
  | _ :: rest => drainAborts rest

/-- Which command a spawn attempt passes to `CargoHandle::spawn`: the
standard `check_command()` or the Verus `run_verus(file)` command. -/
inductive SpawnKind
  | check
  | verus (file : String)
deriving DecidableEq

/-- Result of servicing one `Restart`/`RestartVerus` event together with
the burst of requests drained in its coalescing window: whether a
`cargo_handle` is live afterwards, the progress events reported (in
order), and the spawn attempts made (in order). -/
structure RestartOutcome where
  running : Bool
  events : List Progress
  spawns : List SpawnKind
deriving DecidableEq

/-- The `StateChange::Restart` branch of `FlycheckActor::run`
(lib.rs:221-248).  `running` is whether a `cargo_handle` was live when the
event was serviced (`cancel_check_process` then reports `DidCancel`,
lib.rs:336-345); `burst` is the request sequence arriving within the
coalescing window; `spawn_ok` is whether `CargoHandle::spawn` succeeds, in
which case `DidStart` is reported, else `DidFailToRestart fail_msg`. -/
def handleRestart (running : Bool) (burst : List StateChange) (spawn_ok : Bool)
    (fail_msg : String) : RestartOutcome :=
  let cancelEvents := if running then [Progress.DidCancel] else []
  if drainAborts burst then
    { running := false, events := cancelEvents, spawns := [] }
  else if spawn_ok then
    { running := true, events := cancelEvents ++ [Progress.DidStart],
      spawns := [SpawnKind.check] }
  else
    { running := false, events := cancelEvents ++ [Progress.DidFailToRestart fail_msg],
      spawns := [SpawnKind.check] }

/-- The `StateChange::RestartVerus(filename)` branch of
`FlycheckActor::run` (lib.rs:250-287): same cancel-then-coalesce sequence;
on successful spawn it reports `VerusResult start_msg` then `DidStart`, on
spawn failure `VerusResult fail_msg` (the two message texts are opaque
formatted strings). -/
def handleRestartVerus (running : Bool) (file : String) (burst : List StateChange)
    (spawn_ok : Bool) (start_msg fail_msg : String) : RestartOutcome :=
  let cancelEvents := if running then [Progress.DidCancel] else []
  if drainAborts burst then
    { running := false, events := cancelEvents, spawns := [] }
  else if spawn_ok then
    { running := true,
      events := cancelEvents ++ [Progress.VerusResult start_msg, Progress.DidStart],
      spawns := [SpawnKind.verus file] }
  else
    { running := false,
      events := cancelEvents ++ [Progress.VerusResult fail_msg],
      spawns := [SpawnKind.verus file] }

theorem drainAborts_eq_false_of_no_cancel {burst : List StateChange}
    (h : StateChange.Cancel ∉ burst) : drainAborts burst = false := by
  induction burst with
  | nil => rfl
  | cons r rest ih =>
    cases r with
    | Cancel => exact absurd (List.mem_cons_self _ _) h
    | Restart =>
      exact ih fun hm => h (List.mem_cons_of_mem _ hm)
    | RestartVerus f =>
      exact ih fun hm => h (List.mem_cons_of_mem _ hm)

theorem drainAborts_eq_true_of_cancel {burst : List StateChange}
    (h : StateChange.Cancel ∈ burst) : drainAborts burst = true := by
  induction burst with
  | nil => exact absurd h (List.not_mem_nil _)
  | cons r rest ih =>
    cases r with
    | Cancel => rfl
    | Restart =>
      rcases List.mem_cons.mp h with h1 | h2
      · exact absurd h1.symm (by simp)
      · exact ih h2
    | RestartVerus f =>
      rcases List.mem_cons.mp h with h1 | h2
      · exact absurd h1.symm (by simp)
      · exact ih h2

/-- C2: for a burst of `Restart` requests that all arrive within the
coalescing window after the first one is serviced, the whole sequence
produces exactly one spawn attempt (of the standard check command) — no
intermediate spawn for the earlier requests of the burst. -/
theorem restart_burst_spawns_once (running : Bool) (burst : List StateChange)
    (spawn_ok : Bool) (fail_msg : String)
    (h : ∀ r ∈ burst, r = StateChange.Restart) :
    (handleRestart running burst spawn_ok fail_msg).spawns = [SpawnKind.check] := by
  have hnc : StateChange.Cancel ∉ burst := by
    intro hm
    exact absurd (h _ hm) (by simp)
  unfold handleRestart
  rw [drainAborts_eq_false_of_no_cancel hnc]
  cases spawn_ok <;> simp

/-- C2 witness: a burst of two further `Restart`s, one spawn. -/
theorem restart_burst_spawns_once_witness :
    (handleRestart true [StateChange.Restart, StateChange.Restart] true "e").spawns =
      [SpawnKind.check] :=
  restart_burst_spawns_once true [StateChange.Restart, StateChange.Restart] true "e"
    (by decide)

/-- C3: a `Cancel` received during the coalescing window of a `Restart` or
`RestartVerus` aborts the restart: no spawn attempt is made, the actor is
left idle, and the events reported by the branch are exactly one
`DidCancel` if a process was live when the restart was serviced and none
otherwise. -/
theorem cancel_in_window_aborts (running : Bool) (burst : List StateChange)
    (spawn_ok : Bool) (file start_msg fail_msg : String)
    (h : StateChange.Cancel ∈ burst) :
    (handleRestart running burst spawn_ok fail_msg =
      { running := false, spawns := [],
        events := if running then [Progress.DidCancel] else [] }) ∧
    (handleRestartVerus running file burst spawn_ok start_msg fail_msg =
      { running := false, spawns := [],
        events := if running then [Progress.DidCancel] else [] }) := by
  have ha := drainAborts_eq_true_of_cancel h
  unfold handleRestart handleRestartVerus
  rw [ha]
  simp

/-- C3 witness: a `Cancel` right after a `Restart` in the window, with a
process live: one `DidCancel`, no spawn. -/
theorem cancel_in_window_aborts_witness :
    (handleRestart true [StateChange.Restart, StateChange.Cancel] true "f" =
      { running := false, spawns := [],
        events := if true then [Progress.DidCancel] else [] }) ∧
    (handleRestartVerus true "m.rs" [StateChange.Restart, StateChange.Cancel] true "s" "f" =
      { running := false, spawns := [],
        events := if true then [Progress.DidCancel] else [] }) :=
  cancel_in_window_aborts true [StateChange.Restart, StateChange.Cancel] true "m.rs" "s" "f"
    (by decide)

/-- C4 (failing input): a `RestartVerus` request arriving within the
coalescing window of an earlier plain `Restart` is consumed by the drain
loop (lib.rs:224-229) and discarded — it is neither `Cancel` (which would
abort) nor does it change the command spawned afterwards: the branch
spawns the plain check command, and no Verus spawn ever happens for it.
The claim (and the spec invariant it quotes) says such a request must be
acted on or superseded by a *later* request; here it silently vanishes in
favor of the *earlier* plain `Restart`. -/
theorem restartVerus_dropped_in_restart_window :
    handleRestart false [StateChange.RestartVerus "file.rs"] true "err" =
      { running := true, events := [Progress.DidStart], spawns := [SpawnKind.check] } ∧
    SpawnKind.verus "file.rs" ∉
      (handleRestart false [StateChange.RestartVerus "file.rs"] true "err").spawns := by
  constructor
  · rfl
  · decide

/-! ## Output reader: `CargoActor::run` and `process_line` -/

/-- The `process_line` closure of `CargoActor::run` (lib.rs:622-656).  The
serde decode of one line (a library call, out of scope) is abstracted as
`deserialize`.  Returns the messages sent on the channel by this line (in
order), the boolean the closure returns, and the text appended to the
stream's error accumulator (the raw line plus a newline on decode failure,
nothing on success). -/
def process_line (deserialize : String → Option JsonMessage) (line : String) :
    List CargoMessage × Bool × String :=
  match deserialize line with
  | some (JsonMessage.Cargo (CargoMetadataMessage.CompilerArtifact artifact)) =>
    (if artifact.fresh then [] else [CargoMessage.CompilerArtifact artifact], true, "")
  | some (JsonMessage.Cargo (CargoMetadataMessage.CompilerMessage msg)) =>
    ([CargoMessage.Diagnostic msg], true, "")
  | some (JsonMessage.Cargo CargoMetadataMessage.Other) => ([], true, "")
  | some (JsonMessage.Rustc message) => ([CargoMessage.Diagnostic message], true, "")
  | none =>
    ((if strContains line "verification results::" then [CargoMessage.VerusResult line]
      else []),
      false, line ++ "\n")

/-- Modelled from the spec: `stdx::process::streaming_output` (repository
code outside `src/`) drains a stream line-by-line and invokes the per-line
callback on every line, in stream order, until end of input.  This folds
the lib.rs:657-670 callbacks over one stream's lines: accumulated sent
messages, the stream's `read_at_least_one_*_message` flag, and the
stream's private error accumulator. -/
def run_stream (deserialize : String → Option JsonMessage) (lines : List String) :
    List CargoMessage × Bool × String :=
  lines.foldl
    (fun acc line =>
      let r := process_line deserialize line
      (acc.1 ++ r.1, acc.2.1 || r.2.1, acc.2.2 ++ r.2.2))
    ([], false, "")

/-- `CargoActor::run` (lib.rs:606-681) under successful stream reading:
the per-stream message sequences (cross-stream interleaving is left
abstract; each stream is internally ordered), the combined
`read_at_least_one_message` flag, and the final accumulated error text
`stdout_errors ++ stderr_errors` (lib.rs:672-676). -/
def CargoActor.run (deserialize : String → Option JsonMessage)
    (stdout_lines stderr_lines : List String) :
    (List CargoMessage × List CargoMessage) × Bool × String :=
  let o := run_stream deserialize stdout_lines
  let e := run_stream deserialize stderr_lines
  ((o.1, e.1), o.2.1 || e.2.1, o.2.2 ++ e.2.2)

/-- Concatenation of a list of strings (in order). -/
def concatStrings : List String → String
  | [] => ""
  | s :: rest => s ++ concatStrings rest

theorem run_stream_spec (d : String → Option JsonMessage) (lines : List String) :
    run_stream d lines =
      ((lines.map (fun l => (process_line d l).1)).flatten,
        lines.any (fun l => (process_line d l).2.1),
        concatStrings (lines.map (fun l => (process_line d l).2.2))) := by
  suffices h : ∀ ms fl er,
      lines.foldl
        (fun acc line =>
          let r := process_line d line
          (acc.1 ++ r.1, acc.2.1 || r.2.1, acc.2.2 ++ r.2.2))
        (ms, fl, er) =
      (ms ++ (lines.map (fun l => (process_line d l).1)).flatten,
        fl || lines.any (fun l => (process_line d l).2.1),
        er ++ concatStrings (lines.map (fun l => (process_line d l).2.2))) by
    simpa [run_stream] using h [] false ""
  induction lines with
  | nil =>
    intro ms fl er
    simp [concatStrings]
  | cons line rest ih =>
    intro ms fl er
    simp only [List.foldl_cons, List.map_cons, List.flatten_cons, List.any_cons, concatStrings]
    rw [ih]
    simp [List.append_assoc, Bool.or_assoc, String.append_assoc]

/-- C7: per-line failure policy of the output reader: a line failing
structured decode contributes exactly the raw line plus a newline to its
stream's private error accumulator, never yields a `Diagnostic` message,
and — if it contains the verification-result marker — still pushes a
`VerusResult` message; each stream's delivered messages are the in-order
concatenation of every line's messages (so well-formed lines interspersed
with malformed ones are all delivered and no malformed line terminates the
stream early); and the final accumulated error text is the stdout
accumulator concatenated with the stderr accumulator. -/
theorem reader_malformed_line_policy (d : String → Option JsonMessage)
    (line : String) (lines stdout_lines stderr_lines : List String)
    (hline : d line = none) :
    ((process_line d line).2.2 = line ++ "\n" ∧
      (∀ diag, CargoMessage.Diagnostic diag ∉ (process_line d line).1) ∧
      (strContains line "verification results::" = true →
        (process_line d line).1 = [CargoMessage.VerusResult line])) ∧
    ((run_stream d lines).1 = (lines.map (fun l => (process_line d l).1)).flatten ∧
      (run_stream d lines).2.2 =
        concatStrings (lines.map (fun l => (process_line d l).2.2))) ∧
    (CargoActor.run d stdout_lines stderr_lines).2.2 =
      (run_stream d stdout_lines).2.2 ++ (run_stream d stderr_lines).2.2 := by
  refine ⟨⟨?_, ?_, ?_⟩, ⟨?_, ?_⟩, ?_⟩
  · unfold process_line
    rw [hline]
  · intro diag
    unfold process_line
    rw [hline]
    cases hm : strContains line "verification results::" <;> simp
  · intro hm
    unfold process_line
    rw [hline, hm]
    simp
  · rw [run_stream_spec]
  · rw [run_stream_spec]
  · rfl

/-- C7 witness: a malformed line carrying the verification-result marker,
under a deserializer that rejects every line. -/
theorem reader_malformed_line_policy_witness :
    ((process_line (fun _ => (none : Option JsonMessage))
        "verification results:: verified: 3 errors: 0").2.2 =
      "verification results:: verified: 3 errors: 0" ++ "\n" ∧
      (∀ diag, CargoMessage.Diagnostic diag ∉
        (process_line (fun _ => (none : Option JsonMessage))
          "verification results:: verified: 3 errors: 0").1) ∧
      (strContains "verification results:: verified: 3 errors: 0"
          "verification results::" = true →
        (process_line (fun _ => (none : Option JsonMessage))
          "verification results:: verified: 3 errors: 0").1 =
          [CargoMessage.VerusResult "verification results:: verified: 3 errors: 0"])) ∧
    ((run_stream (fun _ => (none : Option JsonMessage)) ["a", "b"]).1 =
      (["a", "b"].map
        (fun l => (process_line (fun _ => (none : Option JsonMessage)) l).1)).flatten ∧
      (run_stream (fun _ => (none : Option JsonMessage)) ["a", "b"]).2.2 =
        concatStrings (["a", "b"].map
          (fun l => (process_line (fun _ => (none : Option JsonMessage)) l).2.2))) ∧
    (CargoActor.run (fun _ => (none : Option JsonMessage)) ["a", "b"] ["c"]).2.2 =
      (run_stream (fun _ => (none : Option JsonMessage)) ["a", "b"]).2.2 ++
        (run_stream (fun _ => (none : Option JsonMessage)) ["c"]).2.2 :=
  reader_malformed_line_policy (fun _ => (none : Option JsonMessage))
    "verification results:: verified: 3 errors: 0" ["a", "b"] ["a", "b"] ["c"] rfl

/-! ## Verification-variant command synthesis: `FlycheckActor::run_verus` -/

/-- Filesystem paths as lists of components; `Path::new`, `Path::join`,
`Path::ancestors`, `Path::strip_prefix` and path equality all operate
component-wise in the source. -/
abbrev FsPath := List String

/-- The filesystem consulted by `run_verus`: which paths exist
(`Path::exists`), and file contents (`fs::read_to_string`). -/
structure FileSystem where
  pathExists : FsPath → Bool
  read_to_string : FsPath → String

/-- `Path::ancestors` (lib.rs:448) with fuel (= component count, each step
removes one component): the path itself, then each parent, ending with the
empty path. -/
def ancestorsAux : Nat → FsPath → List FsPath
  | 0, p => [p]
  | n + 1, p => p :: ancestorsAux n p.dropLast

/-- `Path::ancestors` of a path. -/
def ancestors (p : FsPath) : List FsPath := ancestorsAux p.length p

/-- `Path::strip_prefix` (component-wise); `none` is the `Err` case that the
source `unwrap`s. -/
def stripPrefixPath : FsPath → FsPath → Option FsPath
  | p, [] => some p
  | [], _ :: _ => none
  | a :: p, b :: q => if a = b then stripPrefixPath p q else none

/-- lib.rs:481/484: the stripped relative path rendered by `to_str` with
"/" separators, then `.replace("/", "::").replace(".rs", "")` — note the
second replace removes every occurrence of ".rs", not only a final
extension. -/
def toModule (rel : FsPath) : String :=
  rustReplace (rustReplace (String.intercalate "/" rel) "/" "::") ".rs" ""

/-- The panics `run_verus` can hit, modelled as error values:
`cargoOverride` is the lib.rs:433 `panic!`; `noRootUnwrap` the lib.rs:495
`root.unwrap()` on `None`; `stripPrefixUnwrap` the lib.rs:481/484
`file.strip_prefix(..).unwrap()` on `Err`; `sliceOutOfRange` the
lib.rs:457 byte slice `line[start..line.len()-1]`, which panics whenever
the matched `extra_args` line is shorter than `start + 1 = 12` bytes
(slice start past slice end). -/
inductive VerusPanic
  | cargoOverride
  | noRootUnwrap
  | stripPrefixUnwrap
  | sliceOutOfRange
deriving DecidableEq

/-- lib.rs:455-470: parse the `extra_args` line.  The byte slice
`line[start..line.len()-1]` with `start = "extra_args".len() + 1 = 11`
panics when the slice start exceeds its end, i.e. when the line holds
fewer than 12 bytes (slices are modelled on characters, which agrees on
ASCII manifests); otherwise the slice is trimmed, a leading "=" is
removed and the rest re-trimmed, one leading and one trailing quote are
removed, and the result is split on single spaces. -/
def parse_extra_args (line : String) : Except VerusPanic (List String) :=
  let start := "extra_args".length + 1
  if line.data.length - 1 < start then Except.error VerusPanic.sliceOutOfRange
  else
    let arguments := rustTrim (strDropRight (strDrop line start) 1)
    let arguments :=
      if strStartsWith arguments "=" then rustTrim (strDrop arguments 1) else arguments
    let arguments := if strStartsWith arguments "\"" then strDrop arguments 1 else arguments
    let arguments := if strEndsWith arguments "\"" then strDropRight arguments 1 else arguments
    Except.ok (rustSplit arguments " ")

/-- The manifest scan of lib.rs:452-477: walk the lines; once a line
containing the section header has been seen, look at the single next line
only — if it contains "extra_args" parse it (propagating the lib.rs:457
slice panic), and either way stop. -/
def scan_toml_lines : List String → Bool → Except VerusPanic (Option (List String))
  | [], _ => Except.ok none
  | line :: rest, found_verus_settings =>
    if found_verus_settings then
      if strContains line "extra_args" then
        match parse_extra_args line with
        | Except.ok arguments_vec => Except.ok (some arguments_vec)
        | Except.error p => Except.error p
      else Except.ok none
    else
      scan_toml_lines rest (strContains line "[package.metadata.verus.ide]")

/-- Rust `str::lines`: split on newline, drop the trailing empty piece
produced by a final newline, strip one trailing carriage return. -/
def rustLines (s : String) : List String :=
  let parts := rustSplit s "\n"
  let parts := if parts.getLast? = some "" then parts.dropLast else parts
  parts.map (fun l => if strEndsWith l "\r" then strDropRight l 1 else l)

/-- `InvocationStrategy` (lib.rs:26-30). -/
inductive InvocationStrategy
  | Once
  | PerWorkspace
deriving DecidableEq

/-- `InvocationLocation` (lib.rs:33-37). -/
inductive InvocationLocation
  | Root (path : FsPath)
  | Workspace
deriving DecidableEq

/-- `FlycheckConfig` (lib.rs:39-59).  `extra_env` only feeds the child
process environment and is omitted. -/
inductive FlycheckConfig
  | CargoCommand (command : String) (target_triples : List String)
      (all_targets no_default_features all_features : Bool)
      (features extra_args : List String) (ansi_color_output : Bool)
  | CustomCommand (command : String) (args : List String)
      (invocation_strategy : InvocationStrategy)
      (invocation_location : InvocationLocation)

/-- The ancestor loop of `run_verus` (lib.rs:448-490), iterating over
`file.ancestors()`: at an ancestor holding `Cargo.toml` the manifest is
scanned first (a slice panic in the scan aborts the whole loop; a
successful scan overwrites the accumulator, a key-less scan keeps it);
then `src/main.rs` is tried, else `src/lib.rs`, else the loop continues
upward; on a hit the target is stripped of the ancestor's `src` prefix
(panicking if it does not lie under it) and the loop breaks. -/
def find_root_loop (fs : FileSystem) (file : FsPath) :
    List FsPath → Option (List String) →
    Except VerusPanic (Option (FsPath × String) × Option (List String))
  | [], extra_args_from_toml => Except.ok (none, extra_args_from_toml)
  | ans :: rest, extra_args_from_toml =>
    if fs.pathExists (ans ++ ["Cargo.toml"]) then
      let toml := fs.read_to_string (ans ++ ["Cargo.toml"])
      match scan_toml_lines (rustLines toml) false with
      | Except.error p => Except.error p
      | Except.ok scanned =>
        let extra :=
          match scanned with
          | some arguments_vec => some arguments_vec
          | none => extra_args_from_toml
        if fs.pathExists (ans ++ ["src", "main.rs"]) then
          match stripPrefixPath file (ans ++ ["src"]) with
          | some rel => Except.ok (some (ans ++ ["src", "main.rs"], toModule rel), extra)
          | none => Except.error VerusPanic.stripPrefixUnwrap
        else if fs.pathExists (ans ++ ["src", "lib.rs"]) then
          match stripPrefixPath file (ans ++ ["src"]) with
          | some rel => Except.ok (some (ans ++ ["src", "lib.rs"], toModule rel), extra)
          | none => Except.error VerusPanic.stripPrefixUnwrap
        else
          find_root_loop fs file rest extra
    else
      find_root_loop fs file rest extra_args_from_toml

/-- `FlycheckActor::run_verus` (lib.rs:430-534), restricted to the argument
list it synthesizes (working-directory and environment handling do not
bear on the claims).  The argument construction (lib.rs:493-507): insert
the entry-file path first; unless the entry file equals the target, insert
"--verify-module" and the module identifier after it; append the extra
arguments recovered from the manifest, then the trailer "--",
"--error-format=json". -/
def run_verus (fs : FileSystem) (config : FlycheckConfig) (file : FsPath) :
    Except VerusPanic (List String) :=
  match config with
  | FlycheckConfig.CargoCommand _ _ _ _ _ _ _ _ => Except.error VerusPanic.cargoOverride
  | FlycheckConfig.CustomCommand _ args _ _ =>
    match find_root_loop fs file (ancestors file) none with
    | Except.error p => Except.error p
    | Except.ok (none, _) => Except.error VerusPanic.noRootUnwrap
    | Except.ok (some (root, file_as_module), extra_args_from_toml) =>
      let args :=
        if root = file then String.intercalate "/" root :: args
        else String.intercalate "/" root :: "--verify-module" :: file_as_module :: args
      let args := args ++ extra_args_from_toml.getD []
      let args := args ++ ["--", "--error-format=json"]
      Except.ok args

/-- C10: the manifest scan recovers extra arguments only from the single
line immediately following the first line containing the section header
`[package.metadata.verus.ide]`; if that next line lacks "extra_args" the
scan stops with nothing, even when the key occurs on later lines. -/
theorem scan_only_next_line (pre : List String) (hline next : String) (rest : List String)
    (hpre : ∀ l ∈ pre, strContains l "[package.metadata.verus.ide]" = false)
    (hhdr : strContains hline "[package.metadata.verus.ide]" = true) :
    scan_toml_lines (pre ++ hline :: next :: rest) false =
      (if strContains next "extra_args" = true then Except.map some (parse_extra_args next)
       else Except.ok none) := by
  induction pre with
  | nil =>
    simp only [List.nil_append, scan_toml_lines, hhdr]
    cases hcont : strContains next "extra_args" with
    | false => simp [hcont]
    | true =>
      cases hparse : parse_extra_args next with
      | ok v => simp [hcont, hparse, Except.map]
      | error p => simp [hcont, hparse, Except.map]
  | cons p ps ih =>
    have hp := hpre p (List.mem_cons_self p ps)
    simp only [List.cons_append, scan_toml_lines, hp]
    simp only [Bool.false_eq_true, if_false]
    exact ih fun l hl => hpre l (List.mem_cons_of_mem p hl)

/-- C10 witness: the header followed by a key-less line; the key on a later
line is not recovered. -/
theorem scan_only_next_line_witness :
    scan_toml_lines (["[package]", "name = \"p\""] ++ "[package.metadata.verus.ide]" ::
        "authors = none" :: ["extra_args = \"--late\""]) false =
      (if strContains "authors = none" "extra_args" = true
       then Except.map some (parse_extra_args "authors = none") else Except.ok none) :=
  scan_only_next_line ["[package]", "name = \"p\""] "[package.metadata.verus.ide]"
    "authors = none" ["extra_args = \"--late\""] (by decide) (by decide)

/-- The scan of one ancestor's manifest (lib.rs:451-477). -/
def scan_result (fs : FileSystem) (ans : FsPath) : Except VerusPanic (Option (List String)) :=
  scan_toml_lines (rustLines (fs.read_to_string (ans ++ ["Cargo.toml"]))) false

/-- An ancestor at which the lib.rs:448-490 loop stops iterating: it holds
a manifest, and then either the manifest scan panics (lib.rs:457) or one
of the two entry files is present. -/
def haltingAncestor (fs : FileSystem) (ans : FsPath) : Bool :=
  fs.pathExists (ans ++ ["Cargo.toml"]) &&
    (!(scan_result fs ans).isOk ||
      (fs.pathExists (ans ++ ["src", "main.rs"]) ||
        fs.pathExists (ans ++ ["src", "lib.rs"])))

theorem exists_ok_of_isOk {e : Except VerusPanic (Option (List String))}
    (h : e.isOk = true) : ∃ sc, e = Except.ok sc := by
  cases e with
  | ok sc => exact ⟨sc, rfl⟩
  | error p => simp [Except.isOk, Except.toBool] at h

/-- If no ancestor in the remaining list halts the loop, it falls through
with `root = None` (whatever the accumulator). -/
theorem find_root_loop_none (fs : FileSystem) (file : FsPath) :
    ∀ (l : List FsPath) (acc : Option (List String)),
      l.find? (haltingAncestor fs) = none →
      ∃ acc2, find_root_loop fs file l acc = Except.ok (none, acc2) := by
  intro l
  induction l with
  | nil =>
    intro acc _
    exact ⟨acc, rfl⟩
  | cons a rest ih =>
    intro acc hfind
    have hga : ¬ haltingAncestor fs a = true := by
      intro hg
      rw [List.find?_cons_of_pos _ hg] at hfind
      exact Option.some_ne_none _ hfind
    have hrest : rest.find? (haltingAncestor fs) = none := by
      rwa [List.find?_cons_of_neg _ hga] at hfind
    by_cases hc : fs.pathExists (a ++ ["Cargo.toml"]) = true
    · simp only [haltingAncestor, hc, Bool.true_and, Bool.not_eq_true, Bool.or_eq_false_iff,
        Bool.not_eq_false] at hga
      obtain ⟨hok, hm, hl⟩ := hga
      obtain ⟨sc, hsc⟩ := exists_ok_of_isOk (by simpa using hok)
      have hsc2 : scan_toml_lines (rustLines (fs.read_to_string (a ++ ["Cargo.toml"])))
          false = Except.ok sc := hsc
      simp [find_root_loop, hc, hsc2, hm, hl]
      exact ih _ hrest
    · simp [find_root_loop, eq_false_of_ne_true hc]
      exact ih _ hrest

/-- If the first halting ancestor is `ans` and its manifest scan panics,
the loop propagates that panic. -/
theorem find_root_loop_scan_panic (fs : FileSystem) (file : FsPath) (ans : FsPath)
    (p : VerusPanic) (hscp : scan_result fs ans = Except.error p) :
    ∀ (l : List FsPath) (acc : Option (List String)),
      l.find? (haltingAncestor fs) = some ans →
      find_root_loop fs file l acc = Except.error p := by
  intro l
  induction l with
  | nil =>
    intro acc hfind
    simp at hfind
  | cons a rest ih =>
    intro acc hfind
    by_cases hga : haltingAncestor fs a = true
    · rw [List.find?_cons_of_pos _ hga] at hfind
      have ha : a = ans := by injection hfind
      subst ha
      have hc : fs.pathExists (a ++ ["Cargo.toml"]) = true := by
        by_contra hcc
        simp [haltingAncestor, eq_false_of_ne_true hcc] at hga
      have hsc2 : scan_toml_lines (rustLines (fs.read_to_string (a ++ ["Cargo.toml"])))
          false = Except.error p := hscp
      simp [find_root_loop, hc, hsc2]
    · rw [List.find?_cons_of_neg _ hga] at hfind
      by_cases hc : fs.pathExists (a ++ ["Cargo.toml"]) = true
      · simp only [haltingAncestor, hc, Bool.true_and, Bool.not_eq_true, Bool.or_eq_false_iff,
          Bool.not_eq_false] at hga
        obtain ⟨hok, hm, hl⟩ := hga
        obtain ⟨sc, hsc⟩ := exists_ok_of_isOk (by simpa using hok)
        have hsc2 : scan_toml_lines (rustLines (fs.read_to_string (a ++ ["Cargo.toml"])))
            false = Except.ok sc := hsc
        simp [find_root_loop, hc, hsc2, hm, hl]
        exact ih _ hfind
      · simp [find_root_loop, eq_false_of_ne_true hc]
        exact ih _ hfind

/-- If the first halting ancestor is `ans`, its scan succeeds, but the
target does not lie under `ans/src`, the loop panics at the
`strip_prefix` unwrap. -/
theorem find_root_loop_strip_panic (fs : FileSystem) (file : FsPath) (ans : FsPath)
    (sc : Option (List String)) (hsc : scan_result fs ans = Except.ok sc)
    (hst : stripPrefixPath file (ans ++ ["src"]) = none) :
    ∀ (l : List FsPath) (acc : Option (List String)),
      l.find? (haltingAncestor fs) = some ans →
      find_root_loop fs file l acc = Except.error VerusPanic.stripPrefixUnwrap := by
  intro l
  induction l with
  | nil =>
    intro acc hfind
    simp at hfind
  | cons a rest ih =>
    intro acc hfind
    by_cases hga : haltingAncestor fs a = true
    · rw [List.find?_cons_of_pos _ hga] at hfind
      have ha : a = ans := by injection hfind
      subst ha
      have hc : fs.pathExists (a ++ ["Cargo.toml"]) = true := by
        by_contra hcc
        simp [haltingAncestor, eq_false_of_ne_true hcc] at hga
      have hsc2 : scan_toml_lines (rustLines (fs.read_to_string (a ++ ["Cargo.toml"])))
          false = Except.ok sc := hsc
      have hml : fs.pathExists (a ++ ["src", "main.rs"]) = true ∨
          fs.pathExists (a ++ ["src", "lib.rs"]) = true := by
        simp only [haltingAncestor, hc, Bool.true_and, hsc, Except.isOk, Except.toBool,
          Bool.not_true, Bool.false_or, Bool.or_eq_true] at hga
        exact hga
      by_cases hm : fs.pathExists (a ++ ["src", "main.rs"]) = true
      · simp [find_root_loop, hc, hsc2, hm, hst]
      · have hl : fs.pathExists (a ++ ["src", "lib.rs"]) = true := by
          rcases hml with h1 | h2
          · exact absurd h1 hm
          · exact h2
        simp [find_root_loop, hc, hsc2, eq_false_of_ne_true hm, hl, hst]
    · rw [List.find?_cons_of_neg _ hga] at hfind
      by_cases hc : fs.pathExists (a ++ ["Cargo.toml"]) = true
      · simp only [haltingAncestor, hc, Bool.true_and, Bool.not_eq_true, Bool.or_eq_false_iff,
          Bool.not_eq_false] at hga
        obtain ⟨hok, hm, hl⟩ := hga
        obtain ⟨sc2, hsc3⟩ := exists_ok_of_isOk (by simpa using hok)
        have hsc4 : scan_toml_lines (rustLines (fs.read_to_string (a ++ ["Cargo.toml"])))
            false = Except.ok sc2 := hsc3
        simp [find_root_loop, hc, hsc4, hm, hl]
        exact ih _ hfind
      · simp [find_root_loop, eq_false_of_ne_true hc]
        exact ih _ hfind

/-- If the first halting ancestor is `ans`, its scan succeeds, and the
target lies under `ans/src` with remainder `rel`, the loop returns the
entry file (`src/main.rs` preferred over `src/lib.rs`) and the module
identifier. -/
theorem find_root_loop_found (fs : FileSystem) (file : FsPath) (ans rel : FsPath)
    (sc : Option (List String)) (hsc : scan_result fs ans = Except.ok sc)
    (hst : stripPrefixPath file (ans ++ ["src"]) = some rel) :
    ∀ (l : List FsPath) (acc : Option (List String)),
      l.find? (haltingAncestor fs) = some ans →
      ∃ acc2, find_root_loop fs file l acc =
        Except.ok (some
          ((if fs.pathExists (ans ++ ["src", "main.rs"]) then ans ++ ["src", "main.rs"]
            else ans ++ ["src", "lib.rs"]), toModule rel), acc2) := by
  intro l
  induction l with
  | nil =>
    intro acc hfind
    simp at hfind
  | cons a rest ih =>
    intro acc hfind
    by_cases hga : haltingAncestor fs a = true
    · rw [List.find?_cons_of_pos _ hga] at hfind
      have ha : a = ans := by injection hfind
      subst ha
      have hc : fs.pathExists (a ++ ["Cargo.toml"]) = true := by
        by_contra hcc
        simp [haltingAncestor, eq_false_of_ne_true hcc] at hga
      have hsc2 : scan_toml_lines (rustLines (fs.read_to_string (a ++ ["Cargo.toml"])))
          false = Except.ok sc := hsc
      have hml : fs.pathExists (a ++ ["src", "main.rs"]) = true ∨
          fs.pathExists (a ++ ["src", "lib.rs"]) = true := by
        simp only [haltingAncestor, hc, Bool.true_and, hsc, Except.isOk, Except.toBool,
          Bool.not_true, Bool.false_or, Bool.or_eq_true] at hga
        exact hga
      by_cases hm : fs.pathExists (a ++ ["src", "main.rs"]) = true
      · cases sc with
        | some v =>
          refine ⟨some v, ?_⟩
          simp [find_root_loop, hc, hsc2, hm, hst]
        | none =>
          refine ⟨acc, ?_⟩
          simp [find_root_loop, hc, hsc2, hm, hst]
      · have hl : fs.pathExists (a ++ ["src", "lib.rs"]) = true := by
          rcases hml with h1 | h2
          · exact absurd h1 hm
          · exact h2
        cases sc with
        | some v =>
          refine ⟨some v, ?_⟩
          simp [find_root_loop, hc, hsc2, eq_false_of_ne_true hm, hl, hst]
        | none =>
          refine ⟨acc, ?_⟩
          simp [find_root_loop, hc, hsc2, eq_false_of_ne_true hm, hl, hst]
    · rw [List.find?_cons_of_neg _ hga] at hfind
      by_cases hc : fs.pathExists (a ++ ["Cargo.toml"]) = true
      · simp only [haltingAncestor, hc, Bool.true_and, Bool.not_eq_true, Bool.or_eq_false_iff,
          Bool.not_eq_false] at hga
        obtain ⟨hok, hm, hl⟩ := hga
        obtain ⟨sc2, hsc3⟩ := exists_ok_of_isOk (by simpa using hok)
        have hsc4 : scan_toml_lines (rustLines (fs.read_to_string (a ++ ["Cargo.toml"])))
            false = Except.ok sc2 := hsc3
        simp [find_root_loop, hc, hsc4, hm, hl]
        exact ih _ hfind
      · simp [find_root_loop, eq_false_of_ne_true hc]
        exact ih _ hfind

/-- Whether a configuration is the built-in cargo kind. -/
def FlycheckConfig.isCargoKind : FlycheckConfig → Bool
  | FlycheckConfig.CargoCommand _ _ _ _ _ _ _ _ => true
  | FlycheckConfig.CustomCommand _ _ _ _ => false

/-- A package with a manifest but no entry file anywhere. -/
def fsNoEntry : FileSystem where
  pathExists p := ([["pkg", "Cargo.toml"]] : List FsPath).contains p
  read_to_string _ := ""

/-- C6 counterexample: with a manifest present in an ancestor (`pkg`) and a
custom-command configuration — neither of the claim's two failure cases —
the synthesizer still fails (the `root.unwrap()` panic), because no
ancestor holds an entry file `src/main.rs` or `src/lib.rs`. -/
theorem run_verus_third_failure_case :
    run_verus fsNoEntry
        (FlycheckConfig.CustomCommand "verus" [] InvocationStrategy.Once
          InvocationLocation.Workspace) ["pkg", "src", "foo.rs"] =
      Except.error VerusPanic.noRootUnwrap ∧
    fsNoEntry.pathExists (["pkg"] ++ ["Cargo.toml"]) = true ∧
    FlycheckConfig.isCargoKind
      (FlycheckConfig.CustomCommand "verus" [] InvocationStrategy.Once
        InvocationLocation.Workspace) = false :=
  ⟨rfl, by decide, rfl⟩

/-- A package whose manifest holds a bare `extra_args` line (10 bytes)
right after the Verus section header: lib.rs:457 slices `line[11..9]` and
panics. -/
def fsShortExtraArgs : FileSystem where
  pathExists p :=
    ([["pkg", "Cargo.toml"], ["pkg", "src", "main.rs"],
      ["pkg", "src", "sub", "mod_file.rs"]] : List FsPath).contains p
  read_to_string p :=
    if p = ["pkg", "Cargo.toml"] then "[package.metadata.verus.ide]\nextra_args\n" else ""

/-- The fourth failure case realized: a qualifying ancestor, a target under
its `src`, a custom config — yet the synthesizer dies in the manifest
scan's byte slice. -/
theorem run_verus_slice_panic_example :
    run_verus fsShortExtraArgs
        (FlycheckConfig.CustomCommand "verus" [] InvocationStrategy.Once
          InvocationLocation.Workspace) ["pkg", "src", "sub", "mod_file.rs"] =
      Except.error VerusPanic.sliceOutOfRange := rfl

/-- C6 amended: the synthesizer fails exactly when the configuration is the
built-in cargo kind; or no ancestor of the target halts the search (none
holds a manifest together with either an entry file or a panic-inducing
`extra_args` line, so `root.unwrap()` fails); or at the first halting
ancestor the manifest scan panics on a short `extra_args` line
(lib.rs:457); or, the scan succeeding, the target does not lie under that
ancestor's `src` directory (the panic of C9).  All these failures are
Rust panics of the actor thread, modelled as error values. -/
theorem run_verus_failure_characterization (fs : FileSystem) (config : FlycheckConfig)
    (file : FsPath) :
    (∃ p, run_verus fs config file = Except.error p) ↔
      (FlycheckConfig.isCargoKind config = true ∨
        (ancestors file).find? (haltingAncestor fs) = none ∨
        ∃ ans, (ancestors file).find? (haltingAncestor fs) = some ans ∧
          ((scan_result fs ans).isOk = false ∨
            stripPrefixPath file (ans ++ ["src"]) = none)) := by
  cases config with
  | CargoCommand c1 c2 c3 c4 c5 c6 c7 c8 =>
    simp [run_verus, FlycheckConfig.isCargoKind]
  | CustomCommand c1 args c3 c4 =>
    cases hfind : (ancestors file).find? (haltingAncestor fs) with
    | none =>
      obtain ⟨acc2, hr⟩ := find_root_loop_none fs file (ancestors file) none hfind
      constructor
      · intro _
        exact Or.inr (Or.inl rfl)
      · intro _
        exact ⟨VerusPanic.noRootUnwrap, by simp [run_verus, hr]⟩
    | some ans =>
      cases hscan : scan_result fs ans with
      | error p =>
        have hr := find_root_loop_scan_panic fs file ans p hscan (ancestors file) none hfind
        constructor
        · intro _
          refine Or.inr (Or.inr ⟨ans, rfl, Or.inl ?_⟩)
          rw [hscan]
          rfl
        · intro _
          exact ⟨p, by simp [run_verus, hr]⟩
      | ok sc =>
        cases hst : stripPrefixPath file (ans ++ ["src"]) with
        | none =>
          have hr := find_root_loop_strip_panic fs file ans sc hscan hst
            (ancestors file) none hfind
          constructor
          · intro _
            exact Or.inr (Or.inr ⟨ans, rfl, Or.inr hst⟩)
          · intro _
            exact ⟨VerusPanic.stripPrefixUnwrap, by simp [run_verus, hr]⟩
        | some rel =>
          obtain ⟨acc2, hr⟩ := find_root_loop_found fs file ans rel sc hscan hst
            (ancestors file) none hfind
          constructor
          · rintro ⟨p, hp⟩
            simp [run_verus, hr] at hp
          · rintro (h1 | h2 | ⟨ans2, hans2, hd⟩)
            · simp [FlycheckConfig.isCargoKind] at h1
            · exact absurd h2 (by simp)
            · have hae : ans2 = ans := by
                injection hans2 with h
                exact h.symm
              subst hae
              rcases hd with hd1 | hd2
              · rw [hscan] at hd1
                simp [Except.isOk, Except.toBool] at hd1
              · rw [hd2] at hst
                exact absurd hst (by simp)

/-- C9: if the nearest ancestor that halts the search does so with a
successful manifest scan (so it holds an entry file), but the target does
not lie under that ancestor's `src` directory, `run_verus` hits the
`file.strip_prefix(..).unwrap()` panic (modelled as
`VerusPanic.stripPrefixUnwrap`) instead of returning a command or a
recoverable failure. -/
theorem run_verus_panics_outside_src (fs : FileSystem) (command : String)
    (args : List String) (strat : InvocationStrategy) (loc : InvocationLocation)
    (file ans : FsPath)
    (hfind : (ancestors file).find? (haltingAncestor fs) = some ans)
    (hscan : (scan_result fs ans).isOk = true)
    (hstrip : stripPrefixPath file (ans ++ ["src"]) = none) :
    run_verus fs (FlycheckConfig.CustomCommand command args strat loc) file =
      Except.error VerusPanic.stripPrefixUnwrap := by
  obtain ⟨sc, hsc⟩ := exists_ok_of_isOk hscan
  have hr := find_root_loop_strip_panic fs file ans sc hsc hstrip (ancestors file) none hfind
  simp [run_verus, hr]

/-- A package `pkg` with a manifest (holding a Verus metadata section), an
entry file `src/main.rs`, a module file `src/sub/mod_file.rs`, and a file
`tests/foo.rs` outside `src`. -/
def fsWitness : FileSystem where
  pathExists p :=
    ([["pkg", "Cargo.toml"], ["pkg", "src", "main.rs"],
      ["pkg", "src", "sub", "mod_file.rs"], ["pkg", "tests", "foo.rs"]] : List FsPath).contains p
  read_to_string p :=
    if p = ["pkg", "Cargo.toml"] then
      "[package.metadata.verus.ide]\nextra_args = \"--rlimit 10\"\n"
    else ""

/-- C9 witness: `pkg/tests/foo.rs` under a package whose manifest and entry
file live at `pkg`: the synthesizer panics at the strip. -/
theorem run_verus_panics_outside_src_witness :
    run_verus fsWitness
        (FlycheckConfig.CustomCommand "verus" [] InvocationStrategy.Once
          InvocationLocation.Workspace) ["pkg", "tests", "foo.rs"] =
      Except.error VerusPanic.stripPrefixUnwrap :=
  run_verus_panics_outside_src fsWitness "verus" [] InvocationStrategy.Once
    InvocationLocation.Workspace ["pkg", "tests", "foo.rs"] ["pkg"] (by decide) (by decide)
    (by decide)

/-- C5: verification-variant synthesis for the module file
`pkg/src/sub/mod_file.rs` under a manifest at `pkg` with entry file
`pkg/src/main.rs`, the manifest scan succeeding with `sc`: the argument
list begins with the entry-file path followed by "--verify-module" and
the module identifier "sub::mod_file" (path relative to `pkg/src`,
extension stripped, separators replaced by "::"); the configured custom
arguments follow, then any extra arguments recovered from the manifest,
then the fixed trailer "--", "--error-format=json".  When the target is
the entry file itself, the flag and identifier are omitted. -/
theorem run_verus_verify_module_args (fs : FileSystem) (command : String)
    (args : List String) (strat : InvocationStrategy) (loc : InvocationLocation)
    (sc : Option (List String))
    (h1 : fs.pathExists ["pkg", "src", "sub", "mod_file.rs", "Cargo.toml"] = false)
    (h2 : fs.pathExists ["pkg", "src", "sub", "Cargo.toml"] = false)
    (h3 : fs.pathExists ["pkg", "src", "Cargo.toml"] = false)
    (h4 : fs.pathExists ["pkg", "Cargo.toml"] = true)
    (h5 : fs.pathExists ["pkg", "src", "main.rs"] = true)
    (h6 : fs.pathExists ["pkg", "src", "main.rs", "Cargo.toml"] = false)
    (hscan : scan_toml_lines (rustLines (fs.read_to_string ["pkg", "Cargo.toml"])) false =
      Except.ok sc) :
    run_verus fs (FlycheckConfig.CustomCommand command args strat loc)
        ["pkg", "src", "sub", "mod_file.rs"] =
      Except.ok ("pkg/src/main.rs" :: "--verify-module" :: "sub::mod_file" :: args ++
        sc.getD [] ++ ["--", "--error-format=json"]) ∧
    run_verus fs (FlycheckConfig.CustomCommand command args strat loc)
        ["pkg", "src", "main.rs"] =
      Except.ok ("pkg/src/main.rs" :: args ++
        sc.getD [] ++ ["--", "--error-format=json"]) := by
  have hmod : toModule ["sub", "mod_file.rs"] = "sub::mod_file" := by decide
  have hstrip : stripPrefixPath ["pkg", "src", "sub", "mod_file.rs"] ["pkg", "src"] =
      some ["sub", "mod_file.rs"] := by decide
  have hstrip2 : stripPrefixPath ["pkg", "src", "main.rs"] ["pkg", "src"] =
      some ["main.rs"] := by decide
  have hroot : String.intercalate "/" ["pkg", "src", "main.rs"] = "pkg/src/main.rs" := by
    decide
  constructor
  · cases sc with
    | none =>
      simp [run_verus, ancestors, ancestorsAux, find_root_loop, h1, h2, h3, h4, h5, hscan,
        hstrip, hmod, hroot]
    | some v =>
      simp [run_verus, ancestors, ancestorsAux, find_root_loop, h1, h2, h3, h4, h5, hscan,
        hstrip, hmod, hroot]
  · cases sc with
    | none =>
      simp [run_verus, ancestors, ancestorsAux, find_root_loop, h6, h3, h4, h5, hscan,
        hstrip2, hroot]
    | some v =>
      simp [run_verus, ancestors, ancestorsAux, find_root_loop, h6, h3, h4, h5, hscan,
        hstrip2, hroot]

/-- C5 witness: the synthesis at a concrete filesystem and configuration. -/
theorem run_verus_verify_module_args_witness :
    run_verus fsWitness
        (FlycheckConfig.CustomCommand "verus" ["cfgarg"] InvocationStrategy.Once
          InvocationLocation.Workspace) ["pkg", "src", "sub", "mod_file.rs"] =
      Except.ok ("pkg/src/main.rs" :: "--verify-module" :: "sub::mod_file" :: ["cfgarg"] ++
        (some ["--rlimit", "10"]).getD [] ++ ["--", "--error-format=json"]) ∧
    run_verus fsWitness
        (FlycheckConfig.CustomCommand "verus" ["cfgarg"] InvocationStrategy.Once
          InvocationLocation.Workspace) ["pkg", "src", "main.rs"] =
      Except.ok ("pkg/src/main.rs" :: ["cfgarg"] ++
        (some ["--rlimit", "10"]).getD [] ++ ["--", "--error-format=json"]) :=
  run_verus_verify_module_args fsWitness "verus" ["cfgarg"] InvocationStrategy.Once
    InvocationLocation.Workspace (some ["--rlimit", "10"]) (by decide) (by decide)
    (by decide) (by decide) (by decide) (by decide) (by rfl)

/-- C4 amended: requests drained during a `Restart`'s coalescing window are
not re-dispatched: any drained request other than `Cancel` is silently
discarded and the branch behaves exactly as if the window had been empty
(the earlier `Restart` wins — in particular a `RestartVerus` arriving in
the window vanishes), while a drained `Cancel` is acted on by aborting the
restart with no spawn. -/
theorem drained_requests_discarded (running : Bool) (burst : List StateChange)
    (spawn_ok : Bool) (fail_msg : String) :
    (StateChange.Cancel ∉ burst →
      handleRestart running burst spawn_ok fail_msg =
        handleRestart running [] spawn_ok fail_msg) ∧
    (StateChange.Cancel ∈ burst →
      (handleRestart running burst spawn_ok fail_msg).spawns = []) := by
  constructor
  · intro h
    unfold handleRestart
    rw [drainAborts_eq_false_of_no_cancel h]
    rfl
  · intro h
    unfold handleRestart
    rw [drainAborts_eq_true_of_cancel h]
    simp

/-- C4 amended-claim witness: a window holding one `RestartVerus` behaves
as an empty window; a window holding a `Cancel` spawns nothing. -/
theorem drained_requests_discarded_witness :
    (StateChange.Cancel ∉ [StateChange.RestartVerus "file.rs"] →
      handleRestart false [StateChange.RestartVerus "file.rs"] true "err" =
        handleRestart false [] true "err") ∧
    (StateChange.Cancel ∈ [StateChange.RestartVerus "file.rs"] →
      (handleRestart false [StateChange.RestartVerus "file.rs"] true "err").spawns = []) :=
  drained_requests_discarded false [StateChange.RestartVerus "file.rs"] true "err"

end Flycheck
